import Mathlib

/-!
Shallow embedding of `remove_drift.py` (fhs_2019_population_paper,
`open_source/mortality/aggregation_ARIMA_squeeze/remove_drift.py`).

Modelling conventions:
* 64-bit floats are modelled as real numbers (`ℝ`); `np.exp` is `Real.exp`.
* A raised Python exception is modelled as `none` of an `Option` result.
* An xarray `DataArray` is modelled as coordinate label lists for the four
  dimensions plus a total value function from labels to values; a NaN-filled
  cell of the freshly allocated output objects is modelled as `none`.
* A `fbd_core.argparse.YearRange` is modelled by its two ordered label lists
  `past_years` and `forecast_years`; `years` is their concatenation.
-/

namespace RemoveDrift

/-- `YearRange`: the year-range collaborator, exposing `past_years`,
`forecast_years` and their concatenation `years`. -/
structure YearRange where
  past_years : List ℤ
  forecast_years : List ℤ

/-- `years.years` — the full ordered year sequence, past then forecast. -/
def YearRange.years (yr : YearRange) : List ℤ :=
  yr.past_years ++ yr.forecast_years

/-- One iteration of the forecast loop of `make_single_predictions`:
`current = last + (beta * np.exp(-decay * year_index))`,
`preds = np.append(preds, current)`, `last = current`.
The state is the pair `(preds, last)`. -/
noncomputable def drift_step (beta decay : ℝ) (st : List ℝ × ℝ) (year_index : ℕ) :
    List ℝ × ℝ :=
  ((st.1 ++ [st.2 + beta * Real.exp (-decay * year_index)]),
   st.2 + beta * Real.exp (-decay * year_index))

/-- `preds = alpha + (beta * linear_years)` with
`linear_years = np.arange(len(years.past_years))`. -/
noncomputable def lin_preds (alpha beta : ℝ) (P : ℕ) : List ℝ :=
  (List.range P).map fun (i : ℕ) => alpha + beta * (i : ℝ)

/-- `make_single_predictions(alpha, beta, years, decay)`:
`preds = alpha + beta * np.arange(len(years.past_years))`, then
`last = preds[-1]` (an IndexError — `none` — on an empty array), then the
forecast loop over `range(len(years.forecast_years))`. -/
noncomputable def make_single_predictions (alpha beta : ℝ) (years : YearRange)
    (decay : ℝ) : Option (List ℝ) :=
  let preds := lin_preds alpha beta years.past_years.length
  preds.getLast?.map fun last =>
    ((List.range years.forecast_years.length).foldl
      (drift_step beta decay) (preds, last)).1

/-- Closed form of the running `last` value after `k` forecast iterations:
the start value plus `beta` times the partial sum of the decay factors. -/
noncomputable def decayed_last (beta decay last0 : ℝ) (k : ℕ) : ℝ :=
  last0 + beta * ∑ j in Finset.range k, Real.exp (-decay * j)

lemma decayed_last_zero (beta decay last0 : ℝ) :
    decayed_last beta decay last0 0 = last0 := by
  simp [decayed_last]

lemma decayed_last_succ (beta decay last0 : ℝ) (k : ℕ) :
    decayed_last beta decay last0 (k + 1)
      = decayed_last beta decay last0 k + beta * Real.exp (-decay * k) := by
  simp only [decayed_last, Finset.sum_range_succ]
  ring

/-- Closed form of the forecast loop: it appends the successive `last` values
to the initial list and ends with `last` at its final value. -/
lemma drift_foldl (beta decay : ℝ) (l0 : List ℝ) (last0 : ℝ) (F : ℕ) :
    (List.range F).foldl (drift_step beta decay) (l0, last0)
      = (l0 ++ (List.range F).map fun k => decayed_last beta decay last0 (k + 1),
         decayed_last beta decay last0 F) := by
  induction F with
  | zero => simp [decayed_last_zero]
  | succ F ih =>
    rw [List.range_succ, List.foldl_append, ih, List.foldl_cons, List.foldl_nil,
      List.map_append]
    simp only [drift_step, List.map_cons, List.map_nil, List.append_assoc,
      decayed_last_succ]

lemma lin_preds_length (alpha beta : ℝ) (P : ℕ) :
    (lin_preds alpha beta P).length = P := by
  simp [lin_preds]

lemma lin_preds_getLast? (alpha beta : ℝ) (Q : ℕ) :
    (lin_preds alpha beta (Q + 1)).getLast? = some (alpha + beta * Q) := by
  rw [lin_preds, List.range_succ, List.map_append]
  simp

lemma lin_preds_getD (alpha beta : ℝ) (P i : ℕ) (hi : i < P) :
    (lin_preds alpha beta P).getD i 0 = alpha + beta * i := by
  rw [lin_preds, List.getD_eq_getElem _ _ (by simpa using hi)]
  simp

/-- The full prediction list returned by `make_single_predictions` when there
are `Q + 1` past years and `F` forecast years. -/
noncomputable def msp_list (alpha beta decay : ℝ) (Q F : ℕ) : List ℝ :=
  lin_preds alpha beta (Q + 1) ++
    (List.range F).map fun k => decayed_last beta decay (alpha + beta * Q) (k + 1)

/-- Characterisation of `make_single_predictions` on a nonempty past-year
range: it succeeds and returns `msp_list`. -/
lemma msp_eq (alpha beta decay : ℝ) (yr : YearRange) (Q : ℕ)
    (hP : yr.past_years.length = Q + 1) :
    make_single_predictions alpha beta yr decay
      = some (msp_list alpha beta decay Q yr.forecast_years.length) := by
  simp only [make_single_predictions, hP, lin_preds_getLast?, Option.map_some',
    drift_foldl]
  rfl

lemma msp_list_length (alpha beta decay : ℝ) (Q F : ℕ) :
    (msp_list alpha beta decay Q F).length = (Q + 1) + F := by
  simp [msp_list, lin_preds]

lemma msp_list_getD_lin (alpha beta decay : ℝ) (Q F i : ℕ) (hi : i < Q + 1) :
    (msp_list alpha beta decay Q F).getD i 0 = alpha + beta * i := by
  rw [msp_list, List.getD_append _ _ _ _ (by simpa [lin_preds_length] using hi)]
  exact lin_preds_getD alpha beta (Q + 1) i hi

lemma msp_list_getD_fc (alpha beta decay : ℝ) (Q F j : ℕ) (hj : j < F) :
    (msp_list alpha beta decay Q F).getD ((Q + 1) + j) 0
      = decayed_last beta decay (alpha + beta * Q) (j + 1) := by
  rw [msp_list, List.getD_append_right _ _ _ _ (by simp [lin_preds_length])]
  rw [lin_preds_length]
  rw [show (Q + 1) + j - (Q + 1) = j by omega]
  rw [List.getD_eq_getElem _ _ (by simpa using hj)]
  simp

lemma msp_list_getD_prev (alpha beta decay : ℝ) (Q F j : ℕ) (hj : j < F) :
    (msp_list alpha beta decay Q F).getD ((Q + 1) + j - 1) 0
      = decayed_last beta decay (alpha + beta * Q) j := by
  cases j with
  | zero =>
    rw [show (Q + 1) + 0 - 1 = Q by omega,
      msp_list_getD_lin alpha beta decay Q F Q (by omega), decayed_last_zero]
  | succ k =>
    rw [show (Q + 1) + (k + 1) - 1 = (Q + 1) + k by omega,
      msp_list_getD_fc alpha beta decay Q F k (by omega)]

/-- C1: for every intercept, slope, decay rate and year range with `P ≥ 1`
past years and `F` forecast years, `make_single_predictions` returns a list
of length `P + F` in year order whose first `P` entries are `alpha + beta*i`
and whose forecast entries satisfy the recursion
`prediction[P+j] = prediction[P+j-1] + beta * exp(-decay*j)` (the `j = 0`
step starting from `last = prediction[P-1]`). -/
theorem C1_make_single_predictions_values (alpha beta decay : ℝ) (yr : YearRange)
    (hP : 1 ≤ yr.past_years.length) :
    ∃ l, make_single_predictions alpha beta yr decay = some l ∧
      l.length = yr.past_years.length + yr.forecast_years.length ∧
      (∀ i, i < yr.past_years.length → l.getD i 0 = alpha + beta * i) ∧
      (∀ j, j < yr.forecast_years.length →
        l.getD (yr.past_years.length + j) 0
          = l.getD (yr.past_years.length + j - 1) 0
            + beta * Real.exp (-decay * j)) := by
  obtain ⟨Q, hQ⟩ : ∃ Q, yr.past_years.length = Q + 1 :=
    ⟨yr.past_years.length - 1, by omega⟩
  refine ⟨msp_list alpha beta decay Q yr.forecast_years.length,
    msp_eq alpha beta decay yr Q hQ, ?_, ?_, ?_⟩
  · rw [msp_list_length, hQ]
  · intro i hi
    exact msp_list_getD_lin alpha beta decay Q _ i (by omega)
  · intro j hj
    rw [hQ, msp_list_getD_fc alpha beta decay Q _ j hj,
      msp_list_getD_prev alpha beta decay Q _ j hj, decayed_last_succ]

/-- Witness for C1 at `alpha = 2`, `beta = 3`, `decay = 0`,
`past_years = [2000, 2001]`, `forecast_years = [2002]`. -/
theorem C1_witness :
    1 ≤ (YearRange.mk [2000, 2001] [2002]).past_years.length ∧
      ∃ l, make_single_predictions 2 3 (YearRange.mk [2000, 2001] [2002]) 0
          = some l ∧
        l.length = (YearRange.mk [2000, 2001] [2002]).past_years.length
            + (YearRange.mk [2000, 2001] [2002]).forecast_years.length ∧
        (∀ i, i < (YearRange.mk [2000, 2001] [2002]).past_years.length →
          l.getD i 0 = 2 + 3 * i) ∧
        (∀ j, j < (YearRange.mk [2000, 2001] [2002]).forecast_years.length →
          l.getD ((YearRange.mk [2000, 2001] [2002]).past_years.length + j) 0
            = l.getD ((YearRange.mk [2000, 2001] [2002]).past_years.length + j - 1) 0
              + 3 * Real.exp (-0 * j)) :=
  ⟨by simp, C1_make_single_predictions_values 2 3 0 (YearRange.mk [2000, 2001] [2002])
    (by simp)⟩

/-- C2: when `decay = 0` the forecast-year values continue the linear trend
exactly: `prediction[P+j] = prediction[P-1] + beta*(j+1)` for every
`j < F`; `decay = 0` is accepted (the call succeeds). -/
theorem C2_decay_zero_linear (alpha beta : ℝ) (yr : YearRange)
    (hP : 1 ≤ yr.past_years.length) :
    ∃ l, make_single_predictions alpha beta yr 0 = some l ∧
      ∀ j, j < yr.forecast_years.length →
        l.getD (yr.past_years.length + j) 0
          = l.getD (yr.past_years.length - 1) 0 + beta * (j + 1) := by
  obtain ⟨Q, hQ⟩ : ∃ Q, yr.past_years.length = Q + 1 :=
    ⟨yr.past_years.length - 1, by omega⟩
  refine ⟨msp_list alpha beta 0 Q yr.forecast_years.length,
    msp_eq alpha beta 0 yr Q hQ, ?_⟩
  intro j hj
  rw [hQ, msp_list_getD_fc alpha beta 0 Q _ j hj,
    show Q + 1 - 1 = Q by omega,
    msp_list_getD_lin alpha beta 0 Q _ Q (by omega)]
  simp only [decayed_last, neg_zero, zero_mul, Real.exp_zero, Finset.sum_const,
    Finset.card_range, nsmul_eq_mul, mul_one]
  push_cast
  ring

/-- Witness for C2 at `alpha = 1`, `beta = 2`,
`past_years = [2000]`, `forecast_years = [2001, 2002]`. -/
theorem C2_witness :
    1 ≤ (YearRange.mk [2000] [2001, 2002]).past_years.length ∧
      ∃ l, make_single_predictions 1 2 (YearRange.mk [2000] [2001, 2002]) 0
          = some l ∧
        ∀ j, j < (YearRange.mk [2000] [2001, 2002]).forecast_years.length →
          l.getD ((YearRange.mk [2000] [2001, 2002]).past_years.length + j) 0
            = l.getD ((YearRange.mk [2000] [2001, 2002]).past_years.length - 1) 0
              + 2 * (j + 1) :=
  ⟨by simp, C2_decay_zero_linear 1 2 (YearRange.mk [2000] [2001, 2002]) (by simp)⟩

/-- C10: the first forecast-year step is never attenuated:
`prediction[P] = prediction[P-1] + beta`, because `exp(-decay*0) = 1`. -/
theorem C10_first_step_unattenuated (alpha beta decay : ℝ) (yr : YearRange)
    (hP : 1 ≤ yr.past_years.length) (hF : 1 ≤ yr.forecast_years.length) :
    ∃ l, make_single_predictions alpha beta yr decay = some l ∧
      l.getD yr.past_years.length 0
        = l.getD (yr.past_years.length - 1) 0 + beta := by
  obtain ⟨Q, hQ⟩ : ∃ Q, yr.past_years.length = Q + 1 :=
    ⟨yr.past_years.length - 1, by omega⟩
  refine ⟨msp_list alpha beta decay Q yr.forecast_years.length,
    msp_eq alpha beta decay yr Q hQ, ?_⟩
  have hfc := msp_list_getD_fc alpha beta decay Q yr.forecast_years.length 0
    (by omega)
  rw [Nat.add_zero] at hfc
  rw [hQ, hfc, show Q + 1 - 1 = Q by omega,
    msp_list_getD_lin alpha beta decay Q _ Q (by omega),
    decayed_last_succ, decayed_last_zero]
  norm_num

/-- Witness for C10 at `alpha = 5`, `beta = 7`, `decay = 11`,
`past_years = [2000]`, `forecast_years = [2001]`. -/
theorem C10_witness :
    1 ≤ (YearRange.mk [2000] [2001]).past_years.length ∧
      1 ≤ (YearRange.mk [2000] [2001]).forecast_years.length ∧
      ∃ l, make_single_predictions 5 7 (YearRange.mk [2000] [2001]) 11 = some l ∧
        l.getD (YearRange.mk [2000] [2001]).past_years.length 0
          = l.getD ((YearRange.mk [2000] [2001]).past_years.length - 1) 0 + 7 :=
  ⟨by simp, by simp,
    C10_first_step_unattenuated 5 7 11 (YearRange.mk [2000] [2001])
      (by simp) (by simp)⟩

/-- C6: for `decay > 0` and `beta > 0`, the year-over-year increment in
forecast years equals `beta * exp(-decay*j)` and is strictly decreasing in
magnitude as `j` increases. -/
theorem C6_monotone_attenuation (alpha beta decay : ℝ) (yr : YearRange)
    (hdecay : 0 < decay) (hbeta : 0 < beta) (hP : 1 ≤ yr.past_years.length) :
    ∃ l, make_single_predictions alpha beta yr decay = some l ∧
      (∀ j, j < yr.forecast_years.length →
        l.getD (yr.past_years.length + j) 0
            - l.getD (yr.past_years.length + j - 1) 0
          = beta * Real.exp (-decay * j)) ∧
      (∀ j, j + 1 < yr.forecast_years.length →
        |l.getD (yr.past_years.length + (j + 1)) 0
            - l.getD (yr.past_years.length + (j + 1) - 1) 0|
          < |l.getD (yr.past_years.length + j) 0
            - l.getD (yr.past_years.length + j - 1) 0|) := by
  obtain ⟨Q, hQ⟩ : ∃ Q, yr.past_years.length = Q + 1 :=
    ⟨yr.past_years.length - 1, by omega⟩
  have hinc : ∀ j, j < yr.forecast_years.length →
      (msp_list alpha beta decay Q yr.forecast_years.length).getD ((Q + 1) + j) 0
          - (msp_list alpha beta decay Q yr.forecast_years.length).getD
            ((Q + 1) + j - 1) 0
        = beta * Real.exp (-decay * j) := by
    intro j hj
    rw [msp_list_getD_fc alpha beta decay Q _ j hj,
      msp_list_getD_prev alpha beta decay Q _ j hj, decayed_last_succ]
    ring
  refine ⟨msp_list alpha beta decay Q yr.forecast_years.length,
    msp_eq alpha beta decay yr Q hQ, ?_, ?_⟩
  · intro j hj
    rw [hQ]
    exact hinc j hj
  · intro j hj
    rw [hQ, hinc (j + 1) hj, hinc j (by omega)]
    have e1 : 0 < beta * Real.exp (-decay * (j + 1 : ℕ)) :=
      mul_pos hbeta (Real.exp_pos _)
    have e2 : 0 < beta * Real.exp (-decay * (j : ℕ)) :=
      mul_pos hbeta (Real.exp_pos _)
    rw [abs_of_pos e1, abs_of_pos e2]
    have hexp : Real.exp (-decay * (j + 1 : ℕ)) < Real.exp (-decay * (j : ℕ)) := by
      apply Real.exp_lt_exp.mpr
      push_cast
      nlinarith
    exact (mul_lt_mul_left hbeta).mpr hexp

/-- Witness for C6 at `alpha = 0`, `beta = 1`, `decay = 1`,
`past_years = [2000]`, `forecast_years = [2001, 2002]`. -/
theorem C6_witness :
    (0 : ℝ) < 1 ∧ (0 : ℝ) < 1 ∧
      1 ≤ (YearRange.mk [2000] [2001, 2002]).past_years.length ∧
      ∃ l, make_single_predictions 0 1 (YearRange.mk [2000] [2001, 2002]) 1
          = some l ∧
        (∀ j, j < (YearRange.mk [2000] [2001, 2002]).forecast_years.length →
          l.getD ((YearRange.mk [2000] [2001, 2002]).past_years.length + j) 0
              - l.getD ((YearRange.mk [2000] [2001, 2002]).past_years.length + j - 1) 0
            = 1 * Real.exp (-1 * j)) ∧
        (∀ j, j + 1 < (YearRange.mk [2000] [2001, 2002]).forecast_years.length →
          |l.getD ((YearRange.mk [2000] [2001, 2002]).past_years.length + (j + 1)) 0
              - l.getD ((YearRange.mk [2000] [2001, 2002]).past_years.length + (j + 1) - 1) 0|
            < |l.getD ((YearRange.mk [2000] [2001, 2002]).past_years.length + j) 0
              - l.getD ((YearRange.mk [2000] [2001, 2002]).past_years.length + j - 1) 0|) :=
  ⟨by norm_num, by norm_num, by simp,
    C6_monotone_attenuation 0 1 1 (YearRange.mk [2000] [2001, 2002])
      (by norm_num) (by norm_num) (by simp)⟩

/-- C9: `make_single_predictions` requires at least one past year: on an
empty `past_years` it fails (`preds[-1]` on the empty linear-prediction
array), and every successful call has `P ≥ 1`. -/
theorem C9_requires_past_year (alpha beta decay : ℝ) (yr : YearRange) :
    (yr.past_years = [] → make_single_predictions alpha beta yr decay = none) ∧
    (∀ l, make_single_predictions alpha beta yr decay = some l →
      1 ≤ yr.past_years.length) := by
  constructor
  · intro h
    simp [make_single_predictions, h, lin_preds]
  · intro l hl
    by_contra hc
    have h : yr.past_years = [] := by
      cases hy : yr.past_years with
      | nil => rfl
      | cons a t => rw [hy] at hc; simp at hc
    rw [show make_single_predictions alpha beta yr decay = none by
      simp [make_single_predictions, h, lin_preds]] at hl
    cases hl

/-- Witness for C9: with `past_years = []` the call fails. -/
theorem C9_witness :
    make_single_predictions 1 2 (YearRange.mk [] [2000]) 3 = none :=
  (C9_requires_past_year 1 2 3 (YearRange.mk [] [2000])).1 rfl

/-- `get_lr_params(ts)`:
`model = sm.OLS(ts.values, sm.add_constant(np.arange(len(ts)))).fit()`,
`alpha, beta = model.params`.
`statsmodels` computes the least-squares parameters with a pseudoinverse:
* `len(ts) = 0`: `add_constant` raises (`np.ptp` is a zero-size reduction),
  modelled as `none`;
* `len(ts) = 1`: the design matrix `[[1, 0]]` is rank-deficient and the
  pseudoinverse yields the minimum-norm least-squares solution `(ts[0], 0)`;
* `len(ts) ≥ 2`: the design matrix has full column rank, so the result is
  the unique normal-equations solution written here in closed form. -/
noncomputable def get_lr_params (ts : List ℝ) : Option (ℝ × ℝ) :=
  if ts.length = 0 then none
  else if ts.length = 1 then some (ts.getD 0 0, 0)
  else
    let n : ℝ := ts.length
    let S1 : ℝ := ∑ i in Finset.range ts.length, (i : ℝ)
    let S2 : ℝ := ∑ i in Finset.range ts.length, (i : ℝ) ^ 2
    let T0 : ℝ := ∑ i in Finset.range ts.length, ts.getD i 0
    let T1 : ℝ := ∑ i in Finset.range ts.length, (i : ℝ) * ts.getD i 0
    let beta := (n * T1 - S1 * T0) / (n * S2 - S1 ^ 2)
    some ((T0 - beta * S1) / n, beta)

lemma sum_range_id_real (n : ℕ) :
    ∑ i in Finset.range n, (i : ℝ) = (n : ℝ) * ((n : ℝ) - 1) / 2 := by
  induction n with
  | zero => simp
  | succ m ih =>
    rw [Finset.sum_range_succ, ih]
    push_cast
    ring

lemma sum_range_sq_real (n : ℕ) :
    ∑ i in Finset.range n, (i : ℝ) ^ 2
      = (n : ℝ) * ((n : ℝ) - 1) * (2 * (n : ℝ) - 1) / 6 := by
  induction n with
  | zero => simp
  | succ m ih =>
    rw [Finset.sum_range_succ, ih]
    push_cast
    ring

/-- C8: for `n ≥ 2` and exact linear data `y_i = a + b*i`, the fitter
recovers `alpha = a` and `beta = b` exactly (the real-number model of the
floating-point computation). -/
theorem C8_fit_recovers_linear (a b : ℝ) (n : ℕ) (hn : 2 ≤ n) :
    get_lr_params ((List.range n).map fun (i : ℕ) => a + b * (i : ℝ))
      = some (a, b) := by
  have hlen : ((List.range n).map fun (i : ℕ) => a + b * (i : ℝ)).length = n := by
    simp
  have hgetD : ∀ i, i < n →
      ((List.range n).map fun (i : ℕ) => a + b * (i : ℝ)).getD i 0
        = a + b * i := by
    intro i hi
    rw [List.getD_eq_getElem _ _ (by simpa using hi)]
    simp
  have hT0 : ∑ i in Finset.range n,
      ((List.range n).map fun (i : ℕ) => a + b * (i : ℝ)).getD i 0
        = (n : ℝ) * a + b * ((n : ℝ) * ((n : ℝ) - 1) / 2) := by
    rw [Finset.sum_congr rfl fun i hi => hgetD i (Finset.mem_range.mp hi),
      Finset.sum_add_distrib, Finset.sum_const, Finset.card_range,
      ← Finset.mul_sum, sum_range_id_real, nsmul_eq_mul]
  have hT1 : ∑ i in Finset.range n,
      (i : ℝ) * ((List.range n).map fun (i : ℕ) => a + b * (i : ℝ)).getD i 0
        = a * ((n : ℝ) * ((n : ℝ) - 1) / 2)
          + b * ((n : ℝ) * ((n : ℝ) - 1) * (2 * (n : ℝ) - 1) / 6) := by
    rw [Finset.sum_congr rfl fun i hi => by
      rw [hgetD i (Finset.mem_range.mp hi)]]
    rw [show (fun i : ℕ => (i : ℝ) * (a + b * i))
        = fun i : ℕ => a * (i : ℝ) + b * (i : ℝ) ^ 2 from funext fun i => by ring]
    rw [Finset.sum_add_distrib, ← Finset.mul_sum, ← Finset.mul_sum,
      sum_range_id_real, sum_range_sq_real]
  have hN2 : (2 : ℝ) ≤ (n : ℝ) := by exact_mod_cast hn
  have hDpos : 0 < (n : ℝ) * ((n : ℝ) * ((n : ℝ) - 1) * (2 * (n : ℝ) - 1) / 6)
      - ((n : ℝ) * ((n : ℝ) - 1) / 2) ^ 2 := by
    have h1 : (0 : ℝ) < (n : ℝ) := by linarith
    have h2 : (0 : ℝ) < (n : ℝ) - 1 := by linarith
    have h3 : (0 : ℝ) < (n : ℝ) + 1 := by linarith
    have h4 := mul_pos (mul_pos (mul_pos h1 h1) h2) h3
    nlinarith [h4]
  simp only [get_lr_params, hlen]
  rw [if_neg (by omega), if_neg (by omega)]
  rw [hT0, hT1, sum_range_id_real, sum_range_sq_real]
  have hbeta : ((n : ℝ) * (a * ((n : ℝ) * ((n : ℝ) - 1) / 2)
        + b * ((n : ℝ) * ((n : ℝ) - 1) * (2 * (n : ℝ) - 1) / 6))
      - (n : ℝ) * ((n : ℝ) - 1) / 2
        * ((n : ℝ) * a + b * ((n : ℝ) * ((n : ℝ) - 1) / 2)))
      / ((n : ℝ) * ((n : ℝ) * ((n : ℝ) - 1) * (2 * (n : ℝ) - 1) / 6)
        - ((n : ℝ) * ((n : ℝ) - 1) / 2) ^ 2) = b := by
    rw [show (n : ℝ) * (a * ((n : ℝ) * ((n : ℝ) - 1) / 2)
        + b * ((n : ℝ) * ((n : ℝ) - 1) * (2 * (n : ℝ) - 1) / 6))
      - (n : ℝ) * ((n : ℝ) - 1) / 2
        * ((n : ℝ) * a + b * ((n : ℝ) * ((n : ℝ) - 1) / 2))
      = b * ((n : ℝ) * ((n : ℝ) * ((n : ℝ) - 1) * (2 * (n : ℝ) - 1) / 6)
        - ((n : ℝ) * ((n : ℝ) - 1) / 2) ^ 2) from by ring]
    exact mul_div_cancel_right₀ b (ne_of_gt hDpos)
  rw [hbeta]
  have halpha : ((n : ℝ) * a + b * ((n : ℝ) * ((n : ℝ) - 1) / 2)
      - b * ((n : ℝ) * ((n : ℝ) - 1) / 2)) / (n : ℝ) = a := by
    rw [show (n : ℝ) * a + b * ((n : ℝ) * ((n : ℝ) - 1) / 2)
      - b * ((n : ℝ) * ((n : ℝ) - 1) / 2) = a * (n : ℝ) from by ring]
    exact mul_div_cancel_right₀ a (Nat.cast_ne_zero.mpr (by omega))
  rw [halpha]

/-- Counterexample to C4: a 1-observation series does not make the fitter
fail; it returns the parameter pair `(ts[0], 0)` (the minimum-norm
least-squares solution of the rank-deficient design matrix `[[1, 0]]`). -/
theorem C4_counterexample_singleton_returns :
    get_lr_params [(5 : ℝ)] = some (5, 0) := by
  simp [get_lr_params]

/-- C4 (amended): the fitter performs no input validation; it fails only on
the empty series (where `add_constant` hits a zero-size reduction), and a
1-observation series returns `(ts[0], 0)` rather than failing. -/
theorem C4_amended_no_validation (ts : List ℝ) :
    (get_lr_params ts = none ↔ ts = []) ∧
    (∀ y : ℝ, get_lr_params [y] = some (y, 0)) := by
  constructor
  · constructor
    · intro h
      by_contra hne
      have hlen : ts.length ≠ 0 := fun h0 => hne (List.length_eq_zero.mp h0)
      by_cases h1 : ts.length = 1
      · simp only [get_lr_params, if_neg hlen, if_pos h1] at h
        exact Option.noConfusion h
      · simp only [get_lr_params, if_neg hlen, if_neg h1] at h
        exact Option.noConfusion h
    · intro h
      rw [h]
      simp [get_lr_params]
  · intro y
    simp [get_lr_params]

/-- An `xarray.DataArray` with dimensions `sex_id`, `age_group_id`,
`location_id`, `year_id`: the coordinate label lists of each dimension plus
a total value function from labels to cell values.  `data k y` is the cell
at demographic key `k = (sex_id, age_group_id, location_id)` and year `y`. -/
structure DataArray where
  sex_ids : List ℤ
  age_group_ids : List ℤ
  location_ids : List ℤ
  year_ids : List ℤ
  data : ℤ × ℤ × ℤ → ℤ → ℝ

/-- `da.loc[sub_dict]`: the year-ordered 1-d time series of one demographic
combination. -/
def DataArray.series (da : DataArray) (k : ℤ × ℤ × ℤ) : List ℝ :=
  da.year_ids.map (da.data k)

/-- The triple nested loop order of the source:
`for sex_id: for age_group_id: for location_id`. -/
def combos3 (ss aa ll : List ℤ) : List (ℤ × ℤ × ℤ) :=
  ss.flatMap fun s => aa.flatMap fun a => ll.map fun l => (s, a, l)

lemma mem_combos3 (ss aa ll : List ℤ) (s a l : ℤ) :
    (s, a, l) ∈ combos3 ss aa ll ↔ s ∈ ss ∧ a ∈ aa ∧ l ∈ ll := by
  simp only [combos3, List.mem_flatMap, List.mem_map, Prod.mk.injEq]
  constructor
  · rintro ⟨s1, hs1, a1, ha1, l1, hl1, rfl, rfl, rfl⟩
    exact ⟨hs1, ha1, hl1⟩
  · rintro ⟨hs, ha, hl⟩
    exact ⟨s, hs, a, ha, l, hl, rfl, rfl, rfl⟩

/-- The parameter dataset built by `get_all_lr_params`: the non-year
coordinate lists of the input plus the `alpha` and `beta` fields.  A cell of
the NaN-filled initial dataset is `none`; a written cell is `some`. -/
structure ParamDs where
  sex_ids : List ℤ
  age_group_ids : List ℤ
  location_ids : List ℤ
  alpha : ℤ × ℤ × ℤ → Option ℝ
  beta : ℤ × ℤ × ℤ → Option ℝ

/-- One iteration of the fitting loop of `get_all_lr_params`:
`ts = da.loc[sub_dict]; alpha, beta = get_lr_params(ts);`
`param_ds["alpha"].loc[sub_dict] = alpha; param_ds["beta"].loc[sub_dict] = beta`.
A `none` state (an exception raised earlier) propagates. -/
noncomputable def fit_step (da : DataArray) (st : Option ParamDs)
    (k : ℤ × ℤ × ℤ) : Option ParamDs :=
  match st with
  | none => none
  | some ds =>
    match get_lr_params (da.series k) with
    | none => none
    | some p =>
      some { ds with
        alpha := fun j => if j = k then some p.1 else ds.alpha j,
        beta := fun j => if j = k then some p.2 else ds.beta j }

/-- `get_all_lr_params(da)`: builds the NaN-filled parameter dataset from
`da.sel(year_id=da.year_id.values.min()).drop("year_id") * np.nan` (a raise
— `none` — when `year_id` has no labels, since `min()` of an empty array is
a zero-size reduction), then runs the triple demographic loop. -/
noncomputable def get_all_lr_params (da : DataArray) : Option ParamDs :=
  if da.year_ids = [] then none
  else
    (combos3 da.sex_ids da.age_group_ids da.location_ids).foldl (fit_step da)
      (some ⟨da.sex_ids, da.age_group_ids, da.location_ids,
        fun _ => none, fun _ => none⟩)

/-- The prediction `DataArray` built by `get_decayed_drift_preds`: the
demographic coordinate lists, the full year coordinate list, and per
demographic key either `none` (the NaN fill of
`params["alpha"] * year_da * np.nan`) or the written year-ordered
prediction series. -/
structure PredDa where
  sex_ids : List ℤ
  age_group_ids : List ℤ
  location_ids : List ℤ
  year_ids : List ℤ
  data : ℤ × ℤ × ℤ → Option (List ℝ)

/-- One iteration of the prediction loop of `get_decayed_drift_preds`:
read `alpha`/`beta` from the parameter dataset and write
`make_single_predictions(alpha, beta, years, decay)` into the combination's
slice.  A `none` state (an exception raised earlier) propagates; an
exception inside `make_single_predictions` propagates as `none`. -/
noncomputable def pred_step (params : ParamDs) (years : YearRange) (decay : ℝ)
    (st : Option PredDa) (k : ℤ × ℤ × ℤ) : Option PredDa :=
  match st with
  | none => none
  | some pda =>
    match params.alpha k, params.beta k with
    | some a, some b =>
      match make_single_predictions a b years decay with
      | none => none
      | some l => some { pda with data := fun j => if j = k then some l else pda.data j }
    | _, _ => none

/-- `get_decayed_drift_preds(eps_da, years, decay)`: fit all linear
regression parameters, allocate the NaN-filled prediction array over the
full year range, then fill it combination by combination (same triple loop
order as the Grid Fitter, iterating the coordinates of `pred_da`, which are
those of `params`). -/
noncomputable def get_decayed_drift_preds (eps_da : DataArray)
    (years : YearRange) (decay : ℝ) : Option PredDa :=
  (get_all_lr_params eps_da).bind fun params =>
    (combos3 params.sex_ids params.age_group_ids params.location_ids).foldl
      (pred_step params years decay)
      (some ⟨params.sex_ids, params.age_group_ids, params.location_ids,
        years.years, fun _ => none⟩)

lemma get_lr_params_of_ne_nil (ts : List ℝ) (h : ts ≠ []) :
    ∃ p, get_lr_params ts = some p := by
  have hlen : ts.length ≠ 0 := by
    simpa [List.length_eq_zero] using h
  by_cases h1 : ts.length = 1
  · exact ⟨_, by rw [get_lr_params, if_neg hlen, if_pos h1]⟩
  · exact ⟨_, by rw [get_lr_params, if_neg hlen, if_neg h1]⟩

lemma series_ne_nil (da : DataArray) (hys : da.year_ids ≠ []) (k : ℤ × ℤ × ℤ) :
    da.series k ≠ [] := by
  simpa [DataArray.series] using hys

/-- Invariant of the fitting loop: it never raises (given a nonempty year
dimension), preserves the coordinate lists, writes `alpha`/`beta` exactly at
the visited keys, and leaves every other key at its prior value. -/
lemma foldl_fit_step (da : DataArray) (hys : da.year_ids ≠ [])
    (ks : List (ℤ × ℤ × ℤ)) :
    ∀ ds0 : ParamDs,
      ∃ ds, ks.foldl (fit_step da) (some ds0) = some ds ∧
        ds.sex_ids = ds0.sex_ids ∧
        ds.age_group_ids = ds0.age_group_ids ∧
        ds.location_ids = ds0.location_ids ∧
        (∀ k, ds.alpha k = if k ∈ ks
          then (get_lr_params (da.series k)).map Prod.fst else ds0.alpha k) ∧
        (∀ k, ds.beta k = if k ∈ ks
          then (get_lr_params (da.series k)).map Prod.snd else ds0.beta k) := by
  induction ks with
  | nil =>
    intro ds0
    exact ⟨ds0, rfl, rfl, rfl, rfl, fun k => by simp, fun k => by simp⟩
  | cons k0 ks ih =>
    intro ds0
    obtain ⟨p, hp⟩ := get_lr_params_of_ne_nil (da.series k0) (series_ne_nil da hys k0)
    have hstep : fit_step da (some ds0) k0
        = some { ds0 with
            alpha := fun j => if j = k0 then some p.1 else ds0.alpha j,
            beta := fun j => if j = k0 then some p.2 else ds0.beta j } := by
      simp [fit_step, hp]
    obtain ⟨ds, hds, hsx, hag, hlc, hA, hB⟩ := ih
      { ds0 with
        alpha := fun j => if j = k0 then some p.1 else ds0.alpha j,
        beta := fun j => if j = k0 then some p.2 else ds0.beta j }
    refine ⟨ds, ?_, hsx, hag, hlc, ?_, ?_⟩
    · rw [List.foldl_cons, hstep, hds]
    · intro k
      rw [hA k]
      by_cases hks : k ∈ ks
      · simp [hks, List.mem_cons]
      · by_cases hk0 : k = k0
        · subst hk0
          simp [hks, hp]
        · simp [hks, hk0, List.mem_cons]
    · intro k
      rw [hB k]
      by_cases hks : k ∈ ks
      · simp [hks, List.mem_cons]
      · by_cases hk0 : k = k0
        · subst hk0
          simp [hks, hp]
        · simp [hks, hk0, List.mem_cons]

/-- C3: for every input array (with a nonempty year dimension, which the
reference requires to start at all), the Grid Fitter's output has an
`(alpha, beta)` entry for exactly the Cartesian product of the `sex_id`,
`age_group_id` and `location_id` coordinate label sets — no missing and no
extra demographic combinations. -/
theorem C3_grid_fitter_exact_product (da : DataArray) (hys : da.year_ids ≠ []) :
    ∃ ds, get_all_lr_params da = some ds ∧
      ds.sex_ids = da.sex_ids ∧
      ds.age_group_ids = da.age_group_ids ∧
      ds.location_ids = da.location_ids ∧
      ∀ s a l, ((ds.alpha (s, a, l)).isSome ∧ (ds.beta (s, a, l)).isSome)
        ↔ (s ∈ da.sex_ids ∧ a ∈ da.age_group_ids ∧ l ∈ da.location_ids) := by
  obtain ⟨ds, hds, hsx, hag, hlc, hA, hB⟩ := foldl_fit_step da hys
    (combos3 da.sex_ids da.age_group_ids da.location_ids)
    ⟨da.sex_ids, da.age_group_ids, da.location_ids, fun _ => none, fun _ => none⟩
  refine ⟨ds, ?_, hsx, hag, hlc, ?_⟩
  · rw [get_all_lr_params, if_neg hys]
    exact hds
  · intro s a l
    rw [hA (s, a, l), hB (s, a, l)]
    by_cases hm : (s, a, l) ∈ combos3 da.sex_ids da.age_group_ids da.location_ids
    · obtain ⟨p, hp⟩ := get_lr_params_of_ne_nil (da.series (s, a, l))
        (series_ne_nil da hys (s, a, l))
      simp [hm, hp, (mem_combos3 da.sex_ids da.age_group_ids da.location_ids
        s a l).mp hm]
    · simp only [if_neg hm, Option.isSome_none, Bool.false_eq_true, and_self,
        false_iff]
      exact fun hc => hm ((mem_combos3 _ _ _ s a l).mpr hc)

/-- Witness for C3 on a concrete 1×1×1 grid with two years. -/
theorem C3_witness :
    (DataArray.mk [1] [2] [3] [2000, 2001] fun _ y => (y : ℝ)).year_ids ≠ [] ∧
      ∃ ds, get_all_lr_params
          (DataArray.mk [1] [2] [3] [2000, 2001] fun _ y => (y : ℝ)) = some ds ∧
        ds.sex_ids = [1] ∧ ds.age_group_ids = [2] ∧ ds.location_ids = [3] ∧
        ∀ s a l, ((ds.alpha (s, a, l)).isSome ∧ (ds.beta (s, a, l)).isSome)
          ↔ (s ∈ ([1] : List ℤ) ∧ a ∈ ([2] : List ℤ) ∧ l ∈ ([3] : List ℤ)) :=
  ⟨by simp, C3_grid_fitter_exact_product
    (DataArray.mk [1] [2] [3] [2000, 2001] fun _ y => (y : ℝ)) (by simp)⟩

/-- Counterexample to C7 as universally stated: an input whose
`location_id` coordinate set is empty but whose `year_id` coordinate set is
also empty makes both the Grid Fitter and the Forecaster raise
(`da.year_id.values.min()` is a zero-size reduction), rather than return an
empty collection. -/
theorem C7_counterexample_empty_year_dim :
    get_all_lr_params (DataArray.mk [1] [2] [] [] fun _ _ => 0) = none ∧
    get_decayed_drift_preds (DataArray.mk [1] [2] [] [] fun _ _ => 0)
      (YearRange.mk [2000] [2001]) 0 = none := by
  constructor
  · rw [get_all_lr_params, if_pos rfl]
  · rw [get_decayed_drift_preds, get_all_lr_params, if_pos rfl]
    rfl

lemma combos3_eq_nil (ss aa ll : List ℤ) (h : ss = [] ∨ aa = [] ∨ ll = []) :
    combos3 ss aa ll = [] := by
  rcases h with h | h | h <;> simp [combos3, h]

/-- C7 (amended): for every input array with a NONEMPTY `year_id` coordinate
set in which some demographic dimension has a zero-length coordinate label
set, the Grid Fitter returns a parameter collection with no entries
(performing no per-series fits) and the Forecaster returns a prediction
array with no cells; neither raises an error. -/
theorem C7_amended_empty_grid (da : DataArray) (yr : YearRange) (decay : ℝ)
    (hys : da.year_ids ≠ [])
    (hempty : da.sex_ids = [] ∨ da.age_group_ids = [] ∨ da.location_ids = []) :
    (∃ ds, get_all_lr_params da = some ds ∧
      ∀ k, ds.alpha k = none ∧ ds.beta k = none) ∧
    (∃ pda, get_decayed_drift_preds da yr decay = some pda ∧
      (∀ k, pda.data k = none) ∧
      pda.sex_ids.length * pda.age_group_ids.length * pda.location_ids.length
        = 0) := by
  have hcombos : combos3 da.sex_ids da.age_group_ids da.location_ids = [] :=
    combos3_eq_nil _ _ _ hempty
  constructor
  · refine ⟨⟨da.sex_ids, da.age_group_ids, da.location_ids,
      fun _ => none, fun _ => none⟩, ?_, fun k => ⟨rfl, rfl⟩⟩
    rw [get_all_lr_params, if_neg hys, hcombos, List.foldl_nil]
  · refine ⟨⟨da.sex_ids, da.age_group_ids, da.location_ids,
      yr.years, fun _ => none⟩, ?_, fun k => rfl, ?_⟩
    · rw [get_decayed_drift_preds, get_all_lr_params, if_neg hys, hcombos,
        List.foldl_nil, Option.some_bind]
      show (combos3 da.sex_ids da.age_group_ids da.location_ids).foldl _ _ = _
      rw [hcombos, List.foldl_nil]
    · rcases hempty with h | h | h <;> simp [h]

/-- Witness for the amended C7 on a concrete input with empty
`location_id` labels and one year. -/
theorem C7_witness :
    (∃ ds, get_all_lr_params (DataArray.mk [1] [2] [] [2000] fun _ _ => 0)
        = some ds ∧ ∀ k, ds.alpha k = none ∧ ds.beta k = none) ∧
    (∃ pda, get_decayed_drift_preds (DataArray.mk [1] [2] [] [2000] fun _ _ => 0)
        (YearRange.mk [2000] [2001]) 0 = some pda ∧
      (∀ k, pda.data k = none) ∧
      pda.sex_ids.length * pda.age_group_ids.length * pda.location_ids.length
        = 0) :=
  C7_amended_empty_grid (DataArray.mk [1] [2] [] [2000] fun _ _ => 0)
    (YearRange.mk [2000] [2001]) 0 (by simp) (Or.inr (Or.inr rfl))

/-- State-passing form of the fitting-loop body: the Python loop body has
the input array `da` in scope and could assign into it; the translated body
threads the array component of the state through every statement.  The only
statements of the source body are reads of `da` and writes into
`param_ds`, so the array component is passed through unchanged. -/
noncomputable def fit_step_st (st : DataArray × Option ParamDs)
    (k : ℤ × ℤ × ℤ) : DataArray × Option ParamDs :=
  (st.1, fit_step st.1 st.2 k)

/-- State-passing form of `get_all_lr_params`: returns the value of the
input array after the call together with the built parameter collection. -/
noncomputable def get_all_lr_params_st (da : DataArray) :
    DataArray × Option ParamDs :=
  if da.year_ids = [] then (da, none)
  else
    (combos3 da.sex_ids da.age_group_ids da.location_ids).foldl fit_step_st
      (da, some ⟨da.sex_ids, da.age_group_ids, da.location_ids,
        fun _ => none, fun _ => none⟩)

/-- State-passing form of the prediction-loop body; the source body reads
`params` and writes into `pred_da`, never into the input array. -/
noncomputable def pred_step_st (params : ParamDs) (years : YearRange)
    (decay : ℝ) (st : DataArray × Option PredDa) (k : ℤ × ℤ × ℤ) :
    DataArray × Option PredDa :=
  (st.1, pred_step params years decay st.2 k)

/-- State-passing form of `get_decayed_drift_preds`: the input array state
is threaded through the Grid Fitter call and the prediction loop. -/
noncomputable def get_decayed_drift_preds_st (eps_da : DataArray)
    (years : YearRange) (decay : ℝ) : DataArray × Option PredDa :=
  let st := get_all_lr_params_st eps_da
  st.2.elim (st.1, none) fun params =>
    (combos3 params.sex_ids params.age_group_ids params.location_ids).foldl
      (pred_step_st params years decay)
      (st.1, some ⟨params.sex_ids, params.age_group_ids, params.location_ids,
        years.years, fun _ => none⟩)

lemma foldl_fit_step_st (ks : List (ℤ × ℤ × ℤ)) (da : DataArray)
    (x : Option ParamDs) :
    ks.foldl fit_step_st (da, x) = (da, ks.foldl (fit_step da) x) := by
  induction ks generalizing x with
  | nil => rfl
  | cons k ks ih =>
    rw [List.foldl_cons, List.foldl_cons]
    exact ih _

lemma foldl_pred_step_st (params : ParamDs) (years : YearRange) (decay : ℝ)
    (ks : List (ℤ × ℤ × ℤ)) (da : DataArray) (x : Option PredDa) :
    ks.foldl (pred_step_st params years decay) (da, x)
      = (da, ks.foldl (pred_step params years decay) x) := by
  induction ks generalizing x with
  | nil => rfl
  | cons k ks ih =>
    rw [List.foldl_cons, List.foldl_cons]
    exact ih _

/-- C5: neither the Grid Fitter nor the Decayed-Drift Forecaster mutates its
input array: in the state-passing embedding the array component after each
call equals the input, and the second component is the freshly built
collection (the value of the plain embedding). -/
theorem C5_inputs_not_mutated (da : DataArray) (yr : YearRange) (decay : ℝ) :
    get_all_lr_params_st da = (da, get_all_lr_params da) ∧
    get_decayed_drift_preds_st da yr decay
      = (da, get_decayed_drift_preds da yr decay) := by
  have h1 : get_all_lr_params_st da = (da, get_all_lr_params da) := by
    rw [get_all_lr_params_st, get_all_lr_params]
    by_cases h : da.year_ids = []
    · rw [if_pos h, if_pos h]
    · rw [if_neg h, if_neg h, foldl_fit_step_st]
  refine ⟨h1, ?_⟩
  rw [get_decayed_drift_preds_st, get_decayed_drift_preds, h1]
  cases hp : get_all_lr_params da with
  | none => rfl
  | some params =>
    show (combos3 params.sex_ids params.age_group_ids
        params.location_ids).foldl (pred_step_st params yr decay)
        (da, some ⟨params.sex_ids, params.age_group_ids, params.location_ids,
          yr.years, fun _ => none⟩) = _
    rw [foldl_pred_step_st, Option.some_bind]

/-- Witness for C8 at `a = 4`, `b = 2`, `n = 3`. -/
theorem C8_witness :
    2 ≤ 3 ∧ get_lr_params ((List.range 3).map fun (i : ℕ) => (4 : ℝ) + 2 * (i : ℝ))
      = some (4, 2) :=
  ⟨by norm_num, C8_fit_recovers_linear 4 2 3 (by norm_num)⟩
